import Mathlib

/-!
Shallow embedding of the Caching-Service repository
(`src/cache_fastapi/fast_api.py`) and verification of its specification.

The service keeps two SQLite-backed tables:
`CachedResult(id, input_string, transformed_string)` memoizing an external
transformation (uppercasing) and `Payload(id, identifier, output)` storing
content-addressed payloads keyed by the MD5 hex digest of their output.
The HTTP layer exposes `POST /payload` (`create_payload`) and
`GET /payload/{identifier}` (`read_payload`).

The store is modelled as lists of rows in insertion order; `select(...).first()`
becomes `List.find?`.  MD5 and UTF-8 encoding are implemented executably over
`Nat` so the kernel can evaluate concrete digests.
-/

namespace CachingService

/-! ### MD5 (RFC 1321), executable over `Nat` bytes -/

/-- The word modulus of MD5, 2^32. -/
def M32 : Nat := 4294967296

/-- Rotate a 32-bit word left by `n` bits. -/
def leftrot (x n : Nat) : Nat := ((x <<< n) ||| (x >>> (32 - n))) % M32

/-- The 64 MD5 sine-derived constants `K[i] = floor(2^32 * |sin(i+1)|)`. -/
def md5K : List Nat :=
  [0xd76aa478, 0xe8c7b756, 0x242070db, 0xc1bdceee,
   0xf57c0faf, 0x4787c62a, 0xa8304613, 0xfd469501,
   0x698098d8, 0x8b44f7af, 0xffff5bb1, 0x895cd7be,
   0x6b901122, 0xfd987193, 0xa679438e, 0x49b40821,
   0xf61e2562, 0xc040b340, 0x265e5a51, 0xe9b6c7aa,
   0xd62f105d, 0x02441453, 0xd8a1e681, 0xe7d3fbc8,
   0x21e1cde6, 0xc33707d6, 0xf4d50d87, 0x455a14ed,
   0xa9e3e905, 0xfcefa3f8, 0x676f02d9, 0x8d2a4c8a,
   0xfffa3942, 0x8771f681, 0x6d9d6122, 0xfde5380c,
   0xa4beea44, 0x4bdecfa9, 0xf6bb4b60, 0xbebfbc70,
   0x289b7ec6, 0xeaa127fa, 0xd4ef3085, 0x04881d05,
   0xd9d4d039, 0xe6db99e5, 0x1fa27cf8, 0xc4ac5665,
   0xf4292244, 0x432aff97, 0xab9423a7, 0xfc93a039,
   0x655b59c3, 0x8f0ccc92, 0xffeff47d, 0x85845dd1,
   0x6fa87e4f, 0xfe2ce6e0, 0xa3014314, 0x4e0811a1,
   0xf7537e82, 0xbd3af235, 0x2ad7d2bb, 0xeb86d391]

/-- The 64 MD5 per-round left-rotation amounts. -/
def md5S : List Nat :=
  [7, 12, 17, 22, 7, 12, 17, 22, 7, 12, 17, 22, 7, 12, 17, 22,
   5, 9, 14, 20, 5, 9, 14, 20, 5, 9, 14, 20, 5, 9, 14, 20,
   4, 11, 16, 23, 4, 11, 16, 23, 4, 11, 16, 23, 4, 11, 16, 23,
   6, 10, 15, 21, 6, 10, 15, 21, 6, 10, 15, 21, 6, 10, 15, 21]

/-- Little-endian byte serialization of a number into `k` bytes. -/
def toLEBytes : Nat → Nat → List Nat
  | 0, _ => []
  | k + 1, n => n % 256 :: toLEBytes k (n / 256)

/-- MD5 padding: append `0x80`, zero bytes up to 56 mod 64, then the
original bit length as 8 little-endian bytes. -/
def md5Pad (msg : List Nat) : List Nat :=
  let padLen := (55 + 64 - msg.length % 64) % 64
  msg ++ [0x80] ++ List.replicate padLen 0 ++ toLEBytes 8 (msg.length * 8 % (2 ^ 64))

/-- Split a byte list into 64-byte chunks (fuel-based so the kernel reduces it). -/
def chunks64Aux : Nat → List Nat → List (List Nat)
  | 0, _ => []
  | _, [] => []
  | fuel + 1, b :: rest => ((b :: rest).take 64) :: chunks64Aux fuel ((b :: rest).drop 64)

/-- Split a byte list into 64-byte chunks. -/
def chunks64 (l : List Nat) : List (List Nat) := chunks64Aux l.length l

/-- Group bytes into little-endian 32-bit words. -/
def bytesToWords : List Nat → List Nat
  | b0 :: b1 :: b2 :: b3 :: rest =>
      (b0 + 256 * (b1 + 256 * (b2 + 256 * b3))) :: bytesToWords rest
  | _ => []

/-- One MD5 round `i` (0 ≤ i < 64) on state `(a, b, c, d)` with message words `m`. -/
def md5Round (m : List Nat) (i : Nat) : Nat × Nat × Nat × Nat → Nat × Nat × Nat × Nat
  | (a, b, c, d) =>
    let f :=
      if i < 16 then (b &&& c) ||| ((M32 - 1 - b) &&& d)
      else if i < 32 then (d &&& b) ||| ((M32 - 1 - d) &&& c)
      else if i < 48 then b ^^^ c ^^^ d
      else c ^^^ (b ||| (M32 - 1 - d))
    let g :=
      if i < 16 then i
      else if i < 32 then (5 * i + 1) % 16
      else if i < 48 then (3 * i + 5) % 16
      else 7 * i % 16
    let f' := (f + a + md5K.getD i 0 + m.getD g 0) % M32
    (d, (b + leftrot f' (md5S.getD i 0)) % M32, b, c)

/-- Run MD5 rounds `i, i+1, ...` for `fuel` steps. -/
def md5RoundsAux (m : List Nat) : Nat → Nat → Nat × Nat × Nat × Nat → Nat × Nat × Nat × Nat
  | 0, _, st => st
  | fuel + 1, i, st => md5RoundsAux m fuel (i + 1) (md5Round m i st)

/-- Process one 64-byte chunk, updating the running digest state. -/
def md5Chunk (st : Nat × Nat × Nat × Nat) (chunk : List Nat) : Nat × Nat × Nat × Nat :=
  let m := bytesToWords chunk
  let r := md5RoundsAux m 64 0 st
  ((st.1 + r.1) % M32, (st.2.1 + r.2.1) % M32,
   (st.2.2.1 + r.2.2.1) % M32, (st.2.2.2 + r.2.2.2) % M32)

/-- MD5 digest of a byte list, as the 16 digest bytes. -/
def md5Digest (msg : List Nat) : List Nat :=
  let st := (chunks64 (md5Pad msg)).foldl md5Chunk
    (0x67452301, 0xefcdab89, 0x98badcfe, 0x10325476)
  toLEBytes 4 st.1 ++ toLEBytes 4 st.2.1 ++ toLEBytes 4 st.2.2.1 ++ toLEBytes 4 st.2.2.2

/-- Lower-case hexadecimal digit for `n < 16`. -/
def hexDigit (n : Nat) : Char :=
  if n < 10 then Char.ofNat (48 + n) else Char.ofNat (87 + n)

/-- A byte as two lower-case hex digits. -/
def byteToHex (b : Nat) : List Char := [hexDigit (b / 16 % 16), hexDigit (b % 16)]

/-- MD5 of a byte list as the usual 32-character lower-case hex string
(`hashlib.md5(...).hexdigest()`). -/
def md5Hex (msg : List Nat) : String := ⟨((md5Digest msg).map byteToHex).flatten⟩

/-! ### UTF-8 encoding (Python's `str.encode()`) -/

/-- UTF-8 encoding of a single code point. -/
def utf8EncodeChar (c : Char) : List Nat :=
  let n := c.toNat
  if n < 0x80 then [n]
  else if n < 0x800 then
    [0xC0 ||| (n >>> 6), 0x80 ||| (n &&& 0x3F)]
  else if n < 0x10000 then
    [0xE0 ||| (n >>> 12), 0x80 ||| ((n >>> 6) &&& 0x3F), 0x80 ||| (n &&& 0x3F)]
  else
    [0xF0 ||| (n >>> 18), 0x80 ||| ((n >>> 12) &&& 0x3F),
     0x80 ||| ((n >>> 6) &&& 0x3F), 0x80 ||| (n &&& 0x3F)]

/-- UTF-8 encoding of a string as a byte list. -/
def utf8Encode (s : String) : List Nat := (s.data.map utf8EncodeChar).flatten

/-- The digest `md5(s.encode()).hexdigest()` from the source, line 104. -/
def md5HexOfString (s : String) : String := md5Hex (utf8Encode s)

/-! ### Data model (`fast_api.py` lines 14-28) -/

/-- A row of the `CachedResult` table: one memoized transformation. -/
structure CachedResult where
  input_string : String
  transformed_string : String
  deriving DecidableEq, Repr

/-- A row of the `Payload` table: one stored content-addressed payload. -/
structure Payload where
  identifier : String
  output : String
  deriving DecidableEq, Repr

/-- The persistent store: both tables, rows in insertion order. -/
structure Store where
  cachedResults : List CachedResult
  payloads : List Payload
  deriving DecidableEq, Repr

/-- The store with empty tables, as created by `SQLModel.metadata.create_all`. -/
def emptyStore : Store := ⟨[], []⟩

/-- An `HTTPException(status_code, detail)` raised by a handler. -/
structure HTTPException where
  status_code : Nat
  detail : String
  deriving DecidableEq, Repr

instance {ε α : Type} [DecidableEq ε] [DecidableEq α] : DecidableEq (Except ε α) :=
  fun a b =>
    match a, b with
    | .ok x, .ok y =>
      if h : x = y then .isTrue (by rw [h]) else .isFalse (by simp [h])
    | .error x, .error y =>
      if h : x = y then .isTrue (by rw [h]) else .isFalse (by simp [h])
    | .ok _, .error _ => .isFalse (by simp)
    | .error _, .ok _ => .isFalse (by simp)

/-! ### Operations (`fast_api.py` lines 45-133) -/

/-- Source `transformer_function` (line 45): uppercase the input string
(ASCII case mapping, matching Python `str.upper()` on the ASCII fragment). -/
def transformer_function (input_string : String) : String :=
  ⟨input_string.data.map Char.toUpper⟩

/-- The query `session.exec(select(CachedResult).where(CachedResult.input_string == s)).first()`:
the first stored row whose `input_string` equals `s`. -/
def findCache (st : Store) (s : String) : Option CachedResult :=
  st.cachedResults.find? (fun r => r.input_string == s)

/-- The query `session.exec(select(Payload).where(Payload.identifier == i)).first()`:
the first stored row whose `identifier` equals `i`. -/
def findPayload (st : Store) (i : String) : Option Payload :=
  st.payloads.find? (fun p => p.identifier == i)

/-- Source `get_or_cache_transformation` (lines 61-80): return the cached
transformation if present, otherwise transform, persist and return. -/
def get_or_cache_transformation (input_string : String) (st : Store) : String × Store :=
  match findCache st input_string with
  | some existing_entry => (existing_entry.transformed_string, st)
  | none =>
    let transformed_string := transformer_function input_string
    (transformed_string,
     { st with cachedResults := st.cachedResults ++ [⟨input_string, transformed_string⟩] })

/-- The list comprehension `[get_or_cache_transformation(s, session) for s in l]`,
evaluated left to right, threading the store. -/
def mapGetOrCache : List String → Store → List String × Store
  | [], st => ([], st)
  | s :: rest, st =>
    let r := get_or_cache_transformation s st
    let rs := mapGetOrCache rest r.2
    (r.1 :: rs.1, rs.2)

/-- The expression `sum(zip(t1, t2), ())` (line 103): zip (truncating at the shorter list)
and flatten the pairs into one alternating sequence. -/
def interleave (t1 t2 : List String) : List String :=
  ((t1.zip t2).map (fun p => [p.1, p.2])).flatten

/-- Python `", ".join(...)`: separator between consecutive elements,
none leading or trailing. -/
def commaJoin : List String → String
  | [] => ""
  | [x] => x
  | x :: y :: rest => x ++ ", " ++ commaJoin (y :: rest)

/-- Lines 100-102: transform both request lists through the cache,
`list_1` first, threading the session state. -/
def buildTransformed (list_1 list_2 : List String) (st : Store) :
    (List String × List String) × Store :=
  let r1 := mapGetOrCache list_1 st
  let r2 := mapGetOrCache list_2 r1.2
  ((r1.1, r2.1), r2.2)

/-- The `interleaved_result` of line 103: the joined string `create_payload` computes. -/
def buildInterleavedResult (list_1 list_2 : List String) (st : Store) : String :=
  let t := (buildTransformed list_1 list_2 st).1
  commaJoin (interleave t.1 t.2)

/-- Source `create_payload` (lines 82-113, `POST /payload`): validate lengths,
transform, interleave, hash, and store the payload if its identifier is new.
Returns the handler's result (identifier or raised `HTTPException`) together
with the resulting store; a raised exception leaves the store as it was when
raised. -/
def create_payload (list_1 list_2 : List String) (st : Store) :
    Except HTTPException String × Store :=
  if list_1.length ≠ list_2.length then
    (Except.error ⟨400, "Lists must be of the same length."⟩, st)
  else
    let t := buildTransformed list_1 list_2 st
    let interleaved_result := commaJoin (interleave t.1.1 t.1.2)
    let identifier := md5HexOfString interleaved_result
    match findPayload t.2 identifier with
    | some existing_payload => (Except.ok existing_payload.identifier, t.2)
    | none =>
      (Except.ok identifier,
       { t.2 with payloads := t.2.payloads ++ [⟨identifier, interleaved_result⟩] })

/-- Source `read_payload` (lines 115-133, `GET /payload/{identifier}`): return the
stored output for the identifier, or raise 404. -/
def read_payload (identifier : String) (st : Store) :
    Except HTTPException String × Store :=
  match findPayload st identifier with
  | some payload => (Except.ok payload.output, st)
  | none => (Except.error ⟨404, "Payload not found."⟩, st)

/-! ### Specification-side definitions and invariants -/

/-- The joined string as the specification words it (§4.2 steps 2-4): transform
each element of each list position for position, interleave `[t1[0], t2[0],
t1[1], t2[1], ...]`, join with the literal separator `", "`. -/
def joinedStringSpec (list_1 list_2 : List String) : String :=
  commaJoin (interleave (list_1.map transformer_function) (list_2.map transformer_function))

/-- Every cached row stores exactly the transformation of its key (true of all
reachable stores: rows are only ever created from `transformer_function`). -/
def cacheConsistent (st : Store) : Prop :=
  ∀ r ∈ st.cachedResults, r.transformed_string = transformer_function r.input_string

/-- Stores reachable from the empty store by the service's operations. -/
inductive Reachable : Store → Prop
  | empty : Reachable emptyStore
  | cacheStep (s : String) {st : Store} :
      Reachable st → Reachable (get_or_cache_transformation s st).2
  | buildStep (list_1 list_2 : List String) {st : Store} :
      Reachable st → Reachable (create_payload list_1 list_2 st).2
  | lookupStep (i : String) {st : Store} :
      Reachable st → Reachable (read_payload i st).2

/-! ### Basic lemmas about the operations -/

theorem get_or_cache_payloads (s : String) (st : Store) :
    (get_or_cache_transformation s st).2.payloads = st.payloads := by
  unfold get_or_cache_transformation
  cases findCache st s <;> rfl

theorem mapGetOrCache_payloads (l : List String) (st : Store) :
    (mapGetOrCache l st).2.payloads = st.payloads := by
  induction l generalizing st with
  | nil => rfl
  | cons s rest ih => simp [mapGetOrCache, ih, get_or_cache_payloads]

theorem buildTransformed_payloads (list_1 list_2 : List String) (st : Store) :
    (buildTransformed list_1 list_2 st).2.payloads = st.payloads := by
  simp [buildTransformed, mapGetOrCache_payloads]

theorem get_or_cache_fst (s : String) (st : Store) (hc : cacheConsistent st) :
    (get_or_cache_transformation s st).1 = transformer_function s := by
  cases hfind : findCache st s with
  | none => simp [get_or_cache_transformation, hfind]
  | some r =>
    have hfind' : st.cachedResults.find? (fun r => r.input_string == s) = some r := hfind
    have hmem : r ∈ st.cachedResults := List.mem_of_find?_eq_some hfind'
    have hkey : r.input_string = s := by
      have := List.find?_some hfind'
      simpa using this
    simp [get_or_cache_transformation, hfind, hc r hmem, hkey]

theorem get_or_cache_consistent (s : String) (st : Store) (hc : cacheConsistent st) :
    cacheConsistent (get_or_cache_transformation s st).2 := by
  cases hfind : findCache st s with
  | some r => simpa [get_or_cache_transformation, hfind] using hc
  | none =>
    intro r hr
    simp only [get_or_cache_transformation, hfind, List.mem_append,
      List.mem_singleton] at hr
    rcases hr with hr | hr
    · exact hc r hr
    · subst hr; rfl

theorem mapGetOrCache_consistent (l : List String) (st : Store) (hc : cacheConsistent st) :
    cacheConsistent (mapGetOrCache l st).2 := by
  induction l generalizing st with
  | nil => exact hc
  | cons s rest ih => exact ih _ (get_or_cache_consistent s st hc)

theorem mapGetOrCache_fst (l : List String) (st : Store) (hc : cacheConsistent st) :
    (mapGetOrCache l st).1 = l.map transformer_function := by
  induction l generalizing st with
  | nil => rfl
  | cons s rest ih =>
    simp [mapGetOrCache, get_or_cache_fst s st hc, ih _ (get_or_cache_consistent s st hc)]

theorem buildInterleaved_eq_spec (list_1 list_2 : List String) (st : Store)
    (hc : cacheConsistent st) :
    buildInterleavedResult list_1 list_2 st = joinedStringSpec list_1 list_2 := by
  unfold buildInterleavedResult buildTransformed joinedStringSpec
  simp [mapGetOrCache_fst list_1 st hc,
    mapGetOrCache_fst list_2 _ (mapGetOrCache_consistent list_1 st hc)]

theorem create_payload_of_len {list_1 list_2 : List String} {st : Store}
    (hlen : list_1.length = list_2.length) :
    create_payload list_1 list_2 st =
      match findPayload (buildTransformed list_1 list_2 st).2
          (md5HexOfString (buildInterleavedResult list_1 list_2 st)) with
      | some existing_payload =>
          (Except.ok existing_payload.identifier, (buildTransformed list_1 list_2 st).2)
      | none =>
          (Except.ok (md5HexOfString (buildInterleavedResult list_1 list_2 st)),
           { (buildTransformed list_1 list_2 st).2 with
             payloads := (buildTransformed list_1 list_2 st).2.payloads ++
               [⟨md5HexOfString (buildInterleavedResult list_1 list_2 st),
                 buildInterleavedResult list_1 list_2 st⟩] }) := by
  unfold create_payload buildInterleavedResult
  rw [if_neg (fun h => h hlen)]

theorem create_payload_fst {list_1 list_2 : List String} {st : Store}
    (hlen : list_1.length = list_2.length) :
    (create_payload list_1 list_2 st).1 =
      Except.ok (md5HexOfString (buildInterleavedResult list_1 list_2 st)) := by
  rw [create_payload_of_len hlen]
  cases hfind : findPayload (buildTransformed list_1 list_2 st).2
      (md5HexOfString (buildInterleavedResult list_1 list_2 st)) with
  | none => rfl
  | some p =>
    have hid : p.identifier = md5HexOfString (buildInterleavedResult list_1 list_2 st) := by
      have hfind' : (buildTransformed list_1 list_2 st).2.payloads.find?
          (fun p => p.identifier == md5HexOfString (buildInterleavedResult list_1 list_2 st))
          = some p := hfind
      have := List.find?_some hfind'
      simpa using this
    simp [hid]

theorem create_payload_contains (list_1 list_2 : List String) (st : Store)
    (hlen : list_1.length = list_2.length) :
    ∃ p, findPayload (create_payload list_1 list_2 st).2
        (md5HexOfString (buildInterleavedResult list_1 list_2 st)) = some p := by
  rw [create_payload_of_len hlen]
  cases hfind : findPayload (buildTransformed list_1 list_2 st).2
      (md5HexOfString (buildInterleavedResult list_1 list_2 st)) with
  | some p => exact ⟨p, by simpa using hfind⟩
  | none =>
    refine ⟨⟨md5HexOfString (buildInterleavedResult list_1 list_2 st),
      buildInterleavedResult list_1 list_2 st⟩, ?_⟩
    have hfind' : (buildTransformed list_1 list_2 st).2.payloads.find?
        (fun p => p.identifier == md5HexOfString (buildInterleavedResult list_1 list_2 st))
        = none := hfind
    simp [findPayload, List.find?_append, hfind']

/-! ### Shape of the MD5 hex digest -/

theorem toLEBytes_length (k n : Nat) : (toLEBytes k n).length = k := by
  induction k generalizing n with
  | zero => rfl
  | succ k ih => simp [toLEBytes, ih]

theorem md5Digest_length (msg : List Nat) : (md5Digest msg).length = 16 := by
  simp [md5Digest, toLEBytes_length]

theorem flatten_byteToHex_length (l : List Nat) :
    ((l.map byteToHex).flatten).length = 2 * l.length := by
  induction l with
  | nil => rfl
  | cons b rest ih => simp [byteToHex, ih]; omega

theorem md5Hex_length (msg : List Nat) : (md5Hex msg).length = 32 := by
  have h := flatten_byteToHex_length (md5Digest msg)
  rw [md5Digest_length] at h
  simpa [md5Hex, String.length] using h

theorem hexDigit_mem (n : Nat) (h : n < 16) :
    hexDigit n ∈ ("0123456789abcdef").data := by
  interval_cases n <;> decide

theorem md5Hex_chars (msg : List Nat) :
    ∀ c ∈ (md5Hex msg).data, c ∈ ("0123456789abcdef").data := by
  intro c hc
  simp only [md5Hex, List.mem_flatten, List.mem_map] at hc
  obtain ⟨sub, ⟨b, _, rfl⟩, hcsub⟩ := hc
  simp only [byteToHex, List.mem_cons, List.not_mem_nil, or_false] at hcsub
  rcases hcsub with rfl | rfl
  · exact hexDigit_mem _ (Nat.mod_lt _ (by norm_num))
  · exact hexDigit_mem _ (Nat.mod_lt _ (by norm_num))

/-! ### Key uniqueness -/

/-- Both tables have at most one row per key. -/
def storeKeysUnique (st : Store) : Prop :=
  (∀ s, st.cachedResults.countP (fun r => r.input_string == s) ≤ 1)
  ∧ (∀ i, st.payloads.countP (fun p => p.identifier == i) ≤ 1)

theorem countP_eq_zero_of_find?_none {α : Type} {p : α → Bool} {l : List α}
    (h : l.find? p = none) : l.countP p = 0 :=
  List.countP_eq_zero.mpr (List.find?_eq_none.mp h)

theorem get_or_cache_unique (s : String) (st : Store) (h : storeKeysUnique st) :
    storeKeysUnique (get_or_cache_transformation s st).2 := by
  cases hfind : findCache st s with
  | some r => simpa [get_or_cache_transformation, hfind] using h
  | none =>
    refine ⟨?_, ?_⟩
    · intro s'
      simp only [get_or_cache_transformation, hfind, List.countP_append,
        List.countP_cons, List.countP_nil]
      rcases hbeq : ((⟨s, transformer_function s⟩ : CachedResult).input_string == s')
        with _ | _
      · have := h.1 s'
        simp [hbeq]; omega
      · have hs : s = s' := by simpa using hbeq
        subst hs
        have hzero : st.cachedResults.countP (fun r => r.input_string == s) = 0 :=
          countP_eq_zero_of_find?_none hfind
        simp [hbeq, hzero]
    · intro i
      have := h.2 i
      simpa [get_or_cache_transformation, hfind] using this

theorem mapGetOrCache_unique (l : List String) (st : Store) (h : storeKeysUnique st) :
    storeKeysUnique (mapGetOrCache l st).2 := by
  induction l generalizing st with
  | nil => exact h
  | cons s rest ih => exact ih _ (get_or_cache_unique s st h)

theorem create_payload_unique (list_1 list_2 : List String) (st : Store)
    (h : storeKeysUnique st) :
    storeKeysUnique (create_payload list_1 list_2 st).2 := by
  by_cases hlen : list_1.length = list_2.length
  · have ht : storeKeysUnique (buildTransformed list_1 list_2 st).2 :=
      mapGetOrCache_unique _ _ (mapGetOrCache_unique _ _ h)
    rw [create_payload_of_len hlen]
    cases hfind : findPayload (buildTransformed list_1 list_2 st).2
        (md5HexOfString (buildInterleavedResult list_1 list_2 st)) with
    | some p => simpa using ht
    | none =>
      refine ⟨?_, ?_⟩
      · intro s'
        have := ht.1 s'
        simpa using this
      · intro i
        simp only [List.countP_append, List.countP_cons, List.countP_nil]
        rcases hbeq : ((⟨md5HexOfString (buildInterleavedResult list_1 list_2 st),
            buildInterleavedResult list_1 list_2 st⟩ : Payload).identifier == i)
          with _ | _
        · have := ht.2 i
          simp [hbeq]; omega
        · have hi : md5HexOfString (buildInterleavedResult list_1 list_2 st) = i := by
            simpa using hbeq
          subst hi
          have hzero : (buildTransformed list_1 list_2 st).2.payloads.countP
              (fun p => p.identifier ==
                md5HexOfString (buildInterleavedResult list_1 list_2 st)) = 0 :=
            countP_eq_zero_of_find?_none hfind
          simp [hbeq, hzero]
  · have : create_payload list_1 list_2 st =
        (Except.error ⟨400, "Lists must be of the same length."⟩, st) := by
      unfold create_payload
      rw [if_pos hlen]
    rw [this]
    exact h

theorem read_payload_snd (i : String) (st : Store) : (read_payload i st).2 = st := by
  unfold read_payload
  cases findPayload st i <;> rfl

theorem reachable_unique {st : Store} (hr : Reachable st) : storeKeysUnique st := by
  induction hr with
  | empty => exact ⟨fun s => by simp [emptyStore], fun i => by simp [emptyStore]⟩
  | cacheStep s _ ih => exact get_or_cache_unique s _ ih
  | buildStep list_1 list_2 _ ih => exact create_payload_unique list_1 list_2 _ ih
  | lookupStep i _ ih => rw [read_payload_snd]; exact ih

theorem create_payload_rows {list_1 list_2 : List String} {st : Store}
    (hlen : list_1.length = list_2.length) (hc : cacheConsistent st)
    (hnc : ∀ p ∈ st.payloads,
      p.identifier = md5HexOfString (joinedStringSpec list_1 list_2) →
      p.output = joinedStringSpec list_1 list_2) :
    ∀ p ∈ (create_payload list_1 list_2 st).2.payloads,
      p.identifier = md5HexOfString (joinedStringSpec list_1 list_2) →
      p.output = joinedStringSpec list_1 list_2 := by
  have hspec := buildInterleaved_eq_spec list_1 list_2 st hc
  rw [create_payload_of_len hlen]
  cases hfind : findPayload (buildTransformed list_1 list_2 st).2
      (md5HexOfString (buildInterleavedResult list_1 list_2 st)) with
  | some p =>
    intro q hq hid
    simp only at hq
    rw [buildTransformed_payloads] at hq
    exact hnc q hq hid
  | none =>
    intro q hq hid
    simp only [List.mem_append, List.mem_singleton] at hq
    rcases hq with hq | hq
    · rw [buildTransformed_payloads] at hq
      exact hnc q hq hid
    · subst hq
      exact hspec

/-- Claim C1 (round trip): for every pair of equal-length lists, building the
payload and then looking up the returned identifier yields exactly the
interleaved/joined string of the transformed lists.  Hypotheses: the cache rows
are consistent with the transformation and no stored payload row collides with
the MD5 digest of this request's joined string while holding different content
— the collision case the specification explicitly accepts as a limitation of
content addressing.  Both hypotheses hold in every store the service itself
builds up. -/
theorem round_trip (list_1 list_2 : List String) (st : Store)
    (hlen : list_1.length = list_2.length) (hc : cacheConsistent st)
    (hnc : ∀ p ∈ st.payloads,
      p.identifier = md5HexOfString (joinedStringSpec list_1 list_2) →
      p.output = joinedStringSpec list_1 list_2) :
    ∃ identifier, (create_payload list_1 list_2 st).1 = Except.ok identifier ∧
      (read_payload identifier (create_payload list_1 list_2 st).2).1
        = Except.ok (joinedStringSpec list_1 list_2) := by
  have hspec := buildInterleaved_eq_spec list_1 list_2 st hc
  refine ⟨md5HexOfString (joinedStringSpec list_1 list_2), ?_, ?_⟩
  · rw [create_payload_fst hlen, hspec]
  · obtain ⟨p, hp⟩ := create_payload_contains list_1 list_2 st hlen
    rw [hspec] at hp
    have hp' : (create_payload list_1 list_2 st).2.payloads.find?
        (fun p => p.identifier == md5HexOfString (joinedStringSpec list_1 list_2))
        = some p := hp
    have hid : p.identifier = md5HexOfString (joinedStringSpec list_1 list_2) := by
      have := List.find?_some hp'
      simpa using this
    have hout := create_payload_rows hlen hc hnc p (List.mem_of_find?_eq_some hp') hid
    simp [read_payload, hp, hout]

/-- Witness for C1 at a concrete input and the empty store. -/
theorem round_trip_witness :
    ∃ identifier,
      (create_payload ["hello"] ["x"] emptyStore).1 = Except.ok identifier ∧
      (read_payload identifier (create_payload ["hello"] ["x"] emptyStore).2).1
        = Except.ok (joinedStringSpec ["hello"] ["x"]) :=
  round_trip ["hello"] ["x"] emptyStore rfl
    (by simp [cacheConsistent, emptyStore]) (by simp [emptyStore])

/-- Claim C2 (joined-string construction): for equal-length lists, the string
`create_payload` builds transforms each element position for position, flattens
to `[t1[0], t2[0], t1[1], t2[1], ...]` and joins with the literal separator
`", "` (no leading or trailing separator); in particular
`list_1 = ["hello","world"]`, `list_2 = ["fastapi","test"]` yields
`"HELLO, FASTAPI, WORLD, TEST"`. -/
theorem build_joined_correct (list_1 list_2 : List String) (st : Store)
    (hlen : list_1.length = list_2.length) (hc : cacheConsistent st) :
    buildInterleavedResult list_1 list_2 st = joinedStringSpec list_1 list_2
    ∧ joinedStringSpec ["hello", "world"] ["fastapi", "test"]
        = "HELLO, FASTAPI, WORLD, TEST" :=
  ⟨buildInterleaved_eq_spec list_1 list_2 st hc, by decide⟩

/-- Witness for C2 at the test scenario's input and the empty store. -/
theorem build_joined_correct_witness :
    buildInterleavedResult ["hello", "world"] ["fastapi", "test"] emptyStore
      = joinedStringSpec ["hello", "world"] ["fastapi", "test"]
    ∧ joinedStringSpec ["hello", "world"] ["fastapi", "test"]
        = "HELLO, FASTAPI, WORLD, TEST" :=
  build_joined_correct ["hello", "world"] ["fastapi", "test"] emptyStore rfl
    (by simp [cacheConsistent, emptyStore])

/-- Claim C3 (identifier derivation): for equal-length lists, `create_payload`
returns the hexadecimal MD5 digest of the UTF-8 encoding of the joined string,
a 32-character string of lower-case hexadecimal characters. -/
theorem identifier_spec (list_1 list_2 : List String) (st : Store)
    (hlen : list_1.length = list_2.length) :
    ∃ identifier, (create_payload list_1 list_2 st).1 = Except.ok identifier ∧
      identifier = md5Hex (utf8Encode (buildInterleavedResult list_1 list_2 st))
      ∧ identifier.length = 32
      ∧ ∀ c ∈ identifier.data, c ∈ ("0123456789abcdef").data :=
  ⟨md5HexOfString (buildInterleavedResult list_1 list_2 st),
   create_payload_fst hlen, rfl, md5Hex_length _, md5Hex_chars _⟩

/-- Witness for C3 at a concrete input and the empty store. -/
theorem identifier_spec_witness :
    ∃ identifier, (create_payload ["a"] ["b"] emptyStore).1 = Except.ok identifier ∧
      identifier = md5Hex (utf8Encode (buildInterleavedResult ["a"] ["b"] emptyStore))
      ∧ identifier.length = 32
      ∧ ∀ c ∈ identifier.data, c ∈ ("0123456789abcdef").data :=
  identifier_spec ["a"] ["b"] emptyStore rfl

/-- Claim C4 (transformation-cache memoization): if no cached row exists for the
input, `get_or_cache_transformation` computes the transformation, appends
exactly one new row `(input, transform(input))` and returns the transformed
string; if a row exists it returns that row's stored output with no change to
the store. -/
theorem get_or_cache_memoizes (s : String) (st : Store) :
    (findCache st s = none →
       get_or_cache_transformation s st =
         (transformer_function s,
          { st with cachedResults :=
              st.cachedResults ++ [⟨s, transformer_function s⟩] }))
    ∧ ∀ r, findCache st s = some r →
        get_or_cache_transformation s st = (r.transformed_string, st) := by
  constructor
  · intro h
    simp [get_or_cache_transformation, h]
  · intro r h
    simp [get_or_cache_transformation, h]

/-- Witness for C4: miss on the empty store persists the transformed row. -/
theorem get_or_cache_memoizes_witness :
    get_or_cache_transformation "hello" emptyStore =
      (transformer_function "hello",
       { emptyStore with cachedResults :=
           emptyStore.cachedResults ++ [⟨"hello", transformer_function "hello"⟩] }) :=
  (get_or_cache_memoizes "hello" emptyStore).1 rfl

/-- Claim C5 (determinism and idempotent insert): from any reachable store, two
successive calls of `get_or_cache_transformation` on the same string return the
same value, and afterwards the store holds exactly one cached row for that
key. -/
theorem get_or_cache_idempotent (s : String) (st : Store) (hr : Reachable st) :
    (get_or_cache_transformation s (get_or_cache_transformation s st).2).1
      = (get_or_cache_transformation s st).1
    ∧ (get_or_cache_transformation s
        (get_or_cache_transformation s st).2).2.cachedResults.countP
        (fun r => r.input_string == s) = 1 := by
  cases hfind : findCache st s with
  | some r =>
    have hfind' : st.cachedResults.find? (fun r => r.input_string == s) = some r :=
      hfind
    have hmem : r ∈ st.cachedResults := List.mem_of_find?_eq_some hfind'
    have hpr : (fun r => r.input_string == s) r = true :=
      List.find?_some (p := fun q : CachedResult => q.input_string == s) hfind'
    have hone : st.cachedResults.countP (fun r => r.input_string == s) = 1 := by
      have hle := (reachable_unique hr).1 s
      have hpos : 0 < st.cachedResults.countP (fun r => r.input_string == s) :=
        List.countP_pos_iff.mpr ⟨r, hmem, hpr⟩
      omega
    simp [get_or_cache_transformation, hfind, hone]
  | none =>
    have hfind' : st.cachedResults.find? (fun r => r.input_string == s) = none := hfind
    have hfind1 : findCache
        (⟨st.cachedResults ++ [⟨s, transformer_function s⟩], st.payloads⟩ : Store) s
        = some ⟨s, transformer_function s⟩ := by
      simp [findCache, List.find?_append, hfind']
    have hzero : st.cachedResults.countP (fun r => r.input_string == s) = 0 :=
      countP_eq_zero_of_find?_none hfind'
    constructor
    · simp [get_or_cache_transformation, hfind, hfind1]
    · simp [get_or_cache_transformation, hfind, hfind1, List.countP_append,
        List.countP_cons, hzero]

/-- Witness for C5 at a concrete key and the (reachable) empty store. -/
theorem get_or_cache_idempotent_witness :
    (get_or_cache_transformation "x"
        (get_or_cache_transformation "x" emptyStore).2).1
      = (get_or_cache_transformation "x" emptyStore).1
    ∧ (get_or_cache_transformation "x"
        (get_or_cache_transformation "x" emptyStore).2).2.cachedResults.countP
        (fun r => r.input_string == "x") = 1 :=
  get_or_cache_idempotent "x" emptyStore Reachable.empty

/-- Claim C6, counterexample: two `create_payload` calls whose requests produce
the same joined string `"A, B"`.  The second call returns the same identifier
and adds no `Payload` row, but it is *not* mutation-free: it inserts the
cache row `("A", "A")` for the previously unseen element `"A"`, so the store
after the second call differs from the store before it. -/
theorem content_addressing_counterexample :
    buildInterleavedResult ["A"] ["b"] (create_payload ["a"] ["b"] emptyStore).2
      = buildInterleavedResult ["a"] ["b"] emptyStore
    ∧ (create_payload ["A"] ["b"] (create_payload ["a"] ["b"] emptyStore).2).1
      = (create_payload ["a"] ["b"] emptyStore).1
    ∧ (create_payload ["A"] ["b"] (create_payload ["a"] ["b"] emptyStore).2).2.payloads
      = (create_payload ["a"] ["b"] emptyStore).2.payloads
    ∧ (create_payload ["A"] ["b"] (create_payload ["a"] ["b"] emptyStore).2).2
      ≠ (create_payload ["a"] ["b"] emptyStore).2 := by
  decide

/-- Claim C6, amended (content addressing): the identifier depends only on the
joined string; a second `create_payload` whose request produces the same joined
string returns the same identifier and leaves the payload table exactly as the
first call left it (no new `Payload` row).  The transformation cache, however,
may still gain rows for unseen elements of the second request. -/
theorem content_addressing (list_1 list_2 list_1' list_2' : List String) (st : Store)
    (h1 : list_1.length = list_2.length) (h2 : list_1'.length = list_2'.length)
    (hj : buildInterleavedResult list_1' list_2' (create_payload list_1 list_2 st).2
          = buildInterleavedResult list_1 list_2 st) :
    (create_payload list_1' list_2' (create_payload list_1 list_2 st).2).1
      = (create_payload list_1 list_2 st).1
    ∧ (create_payload list_1' list_2' (create_payload list_1 list_2 st).2).2.payloads
      = (create_payload list_1 list_2 st).2.payloads := by
  obtain ⟨p, hp⟩ := create_payload_contains list_1 list_2 st h1
  have hfp : findPayload
      (buildTransformed list_1' list_2' (create_payload list_1 list_2 st).2).2
      (md5HexOfString
        (buildInterleavedResult list_1' list_2' (create_payload list_1 list_2 st).2))
      = some p := by
    rw [hj]
    unfold findPayload
    rw [buildTransformed_payloads]
    exact hp
  constructor
  · rw [create_payload_fst h2, create_payload_fst h1, hj]
  · rw [create_payload_of_len h2, hfp]
    simp [buildTransformed_payloads]

/-- Witness for the amended C6: repeating the same request leaves the payload
table unchanged and returns the same identifier. -/
theorem content_addressing_witness :
    (create_payload ["a"] ["b"] (create_payload ["a"] ["b"] emptyStore).2).1
      = (create_payload ["a"] ["b"] emptyStore).1
    ∧ (create_payload ["a"] ["b"] (create_payload ["a"] ["b"] emptyStore).2).2.payloads
      = (create_payload ["a"] ["b"] emptyStore).2.payloads :=
  content_addressing ["a"] ["b"] ["a"] ["b"] emptyStore rfl rfl (by decide)

/-- Claim C7 (validation with atomic failure): when the two lists have different
lengths, `create_payload` raises HTTP 400 with detail
`"Lists must be of the same length."` and the store is completely unchanged. -/
theorem validation_atomic (list_1 list_2 : List String) (st : Store)
    (h : list_1.length ≠ list_2.length) :
    create_payload list_1 list_2 st
      = (Except.error ⟨400, "Lists must be of the same length."⟩, st) := by
  unfold create_payload
  rw [if_pos h]

/-- Witness for C7 at the test scenario's mismatched input. -/
theorem validation_atomic_witness :
    create_payload ["hello", "world"] ["fastapi"] emptyStore
      = (Except.error ⟨400, "Lists must be of the same length."⟩, emptyStore) :=
  validation_atomic ["hello", "world"] ["fastapi"] emptyStore (by decide)

/-- Claim C8 (not-found): when no `Payload` row matches the identifier,
`read_payload` raises HTTP 404 with detail `"Payload not found."` and leaves
the store unchanged; when a row matches, it returns that row's stored output,
also leaving the store unchanged. -/
theorem read_payload_spec (identifier : String) (st : Store) :
    (findPayload st identifier = none →
       read_payload identifier st
         = (Except.error ⟨404, "Payload not found."⟩, st))
    ∧ ∀ p, findPayload st identifier = some p →
        read_payload identifier st = (Except.ok p.output, st) := by
  constructor
  · intro h
    simp [read_payload, h]
  · intro p h
    simp [read_payload, h]

/-- Witness for C8: an identifier never produced signals 404 on the empty
store. -/
theorem read_payload_spec_witness :
    read_payload "nonexistent_identifier" emptyStore
      = (Except.error ⟨404, "Payload not found."⟩, emptyStore) :=
  (read_payload_spec "nonexistent_identifier" emptyStore).1 rfl

/-- Claim C9 (key-uniqueness invariant): every store reachable from the empty
store by the service's operations has at most one cached row per input string
and at most one payload row per identifier. -/
theorem key_uniqueness (st : Store) (hr : Reachable st) :
    (∀ s, st.cachedResults.countP (fun r => r.input_string == s) ≤ 1)
    ∧ ∀ i, st.payloads.countP (fun p => p.identifier == i) ≤ 1 :=
  reachable_unique hr

/-- Witness for C9 at a concrete reachable store (after one build). -/
theorem key_uniqueness_witness :
    (create_payload ["a"] ["b"] emptyStore).2.cachedResults.countP
      (fun r => r.input_string == "a") ≤ 1 :=
  (key_uniqueness _ (Reachable.buildStep ["a"] ["b"] Reachable.empty)).1 "a"

/-- Claim C10 (empty-lists edge case): building with two empty lists succeeds,
the joined string is empty, the identifier is the MD5 digest of the empty
string `"d41d8cd98f00b204e9800998ecf8427e"`, a `Payload` row with empty output
is stored, and looking that identifier up returns the empty string. -/
theorem empty_lists_build :
    buildInterleavedResult [] [] emptyStore = ""
    ∧ create_payload [] [] emptyStore
      = (Except.ok "d41d8cd98f00b204e9800998ecf8427e",
         ⟨[], [⟨"d41d8cd98f00b204e9800998ecf8427e", ""⟩]⟩)
    ∧ (read_payload "d41d8cd98f00b204e9800998ecf8427e"
        (create_payload [] [] emptyStore).2).1 = Except.ok "" := by
  decide

end CachingService
